import Mathlib

/-!
# AntiRef clustering notebook: formal model

A shallow embedding of the core logic of the AntiRef clustering notebook
(`cluster.ipynb`): the assignment-table loader (cell 8a002d12), the manifest
writer (cell 06a080c0), the clustering-step driver `linclust` together with
the threshold loop (cells 90d21181 and 5ed69526), and the efficiency
calculator (cell 80d44763).  Python dictionaries are modelled as association
lists with insertion-order semantics (Python 3.7+), text lines as `String`,
and Python float division as exact division in `ℚ`.  Fatal Python exceptions
(KeyError, IndexError, TypeError, ZeroDivisionError) are modelled as the
`Except`/`Option` error channel.
-/

/-- Python `str.strip()` with no arguments: remove leading and trailing
whitespace. -/
def pystrip (s : String) : String :=
  String.mk (((s.data.dropWhile Char.isWhitespace).reverse.dropWhile
    Char.isWhitespace).reverse)

/-- Helper for `pysplit`: walk the characters, accumulating the current
field in reverse; whitespace ends a field, and empty fields are dropped. -/
def splitWsAux : List Char → List Char → List String
  | [], [] => []
  | [], cur => [String.mk cur.reverse]
  | c :: cs, cur =>
    if c.isWhitespace then
      match cur with
      | [] => splitWsAux cs []
      | _ => String.mk cur.reverse :: splitWsAux cs []
    else splitWsAux cs (c :: cur)

/-- Python `str.split()` with no arguments: split on runs of whitespace,
discarding empty fields. -/
def pysplit (s : String) : List String := splitWsAux s.data []

instance {ε α : Type} [DecidableEq ε] [DecidableEq α] : DecidableEq (Except ε α) :=
  fun x y =>
  match x, y with
  | .ok a, .ok b =>
    if h : a = b then .isTrue (by rw [h])
    else .isFalse (fun hh => h (Except.ok.inj hh))
  | .error a, .error b =>
    if h : a = b then .isTrue (by rw [h])
    else .isFalse (fun hh => h (Except.error.inj hh))
  | .ok _, .error _ => .isFalse (fun hh => Except.noConfusion hh)
  | .error _, .ok _ => .isFalse (fun hh => Except.noConfusion hh)

/-- A Python `dict` with string keys and values, modelled as an association
list in insertion order. -/
abbrev Dict := List (String × String)

/-- Python `d[k] = v`: replace the value in place when `k` is already a key
(keeping its position, as Python 3.7+ dicts do), otherwise append. -/
def dinsert (d : Dict) (k v : String) : Dict :=
  match d with
  | [] => [(k, v)]
  | (k₀, v₀) :: rest =>
    if k₀ = k then (k₀, v) :: rest else (k₀, v₀) :: dinsert rest k v

/-- Python `d[k]` / `k in d`: the value stored at key `k`, if any. -/
def dlookup (d : Dict) (k : String) : Option String :=
  match d with
  | [] => none
  | (k₀, v₀) :: rest => if k₀ = k then some v₀ else dlookup rest k

/-- Python `list(d.keys())`: the keys in insertion order. -/
def dkeys (d : Dict) : List String := d.map Prod.fst

/-- The loader body of cell 8a002d12, for one level's tsv file, starting
from dictionary `d`:

```
for line in f:
    if l := line.strip().split():
        d[l[1]] = l[0]
```

A line whose `strip().split()` is empty (blank or whitespace-only) is
skipped; a line with a single token raises `IndexError` at `l[1]`; otherwise
`d[l[1]] = l[0]` stores member `l[1] ↦` representative `l[0]`, ignoring any
further tokens. -/
def load_cluster_dict_from (d : Dict) : List String → Except String Dict
  | [] => .ok d
  | line :: rest =>
    match pysplit (pystrip line) with
    | [] => load_cluster_dict_from d rest
    | [_] => .error "IndexError"
    | rep :: mem :: _ => load_cluster_dict_from (dinsert d mem rep) rest

/-- Loading one level's assignment table into a fresh dictionary
(`d = {}` at the top of the loop body of cell 8a002d12). -/
def load_cluster_dict (lines : List String) : Except String Dict :=
  load_cluster_dict_from [] lines

/-- The threshold sequence of cell db3a5e7b:
`thresholds = [100, 99, 98, 96, 94, 92, 90]`. -/
def thresholds : List Nat := [100, 99, 98, 96, 94, 92, 90]

/-- One manifest row, exactly as unrolled in cell 06a080c0: starting from a
base identifier `c100`, each coarser column is Python `cluster_dicts[L][·]`
applied to the previous column; a missing key is a `KeyError`, modelled as
`.error (L, key)` naming the level whose dictionary lacks the current chain
value. -/
def manifest_row (d99 d98 d96 d94 d92 d90 : Dict) (c100 : String) :
    Except (Nat × String) (List String) :=
  match dlookup d99 c100 with
  | none => .error (99, c100)
  | some c99 =>
    match dlookup d98 c99 with
    | none => .error (98, c99)
    | some c98 =>
      match dlookup d96 c98 with
      | none => .error (96, c98)
      | some c96 =>
        match dlookup d94 c96 with
        | none => .error (94, c96)
        | some c94 =>
          match dlookup d92 c94 with
          | none => .error (92, c94)
          | some c92 =>
            match dlookup d90 c92 with
            | none => .error (90, c92)
            | some c90 => .ok [c100, c99, c98, c96, c94, c92, c90]

/-- The same chain resolution, for an arbitrary ordered list of
`(level, dictionary)` pairs (finest to coarsest): seed the row with the base
identifier, then repeatedly look the current value up in the next level's
dictionary.  `manifest_row` is this function at the notebook's six
coarser-level dictionaries (see `manifest_row_eq_resolve_chain`). -/
def resolve_chain (dicts : List (Nat × Dict)) (seed : String) :
    Except (Nat × String) (List String) :=
  match dicts with
  | [] => .ok [seed]
  | (lvl, d) :: rest =>
    match dlookup d seed with
    | none => .error (lvl, seed)
    | some v =>
      match resolve_chain rest v with
      | .error e => .error e
      | .ok row => .ok (seed :: row)

/-- The row loop of cell 06a080c0 over a list of seed names: each fully
resolved row is written before the next name is processed; the first
`KeyError` aborts the loop, emitting nothing for the failing name (the
`f.write` of a row happens only after all six lookups for it succeed). -/
def manifest_loop (rowOf : String → Except (Nat × String) (List String)) :
    List String → List (List String) × Option (Nat × String)
  | [] => ([], none)
  | n :: rest =>
    match rowOf n with
    | .error e => ([], some e)
    | .ok row =>
      let p := manifest_loop rowOf rest
      (row :: p.fst, p.snd)

/-- Cell 06a080c0: seed names are `list(cluster_dicts[99].keys())`, and each
is threaded through the six coarser dictionaries. Returns the emitted data
rows and the aborting `KeyError`, if any. -/
def write_manifest (d99 d98 d96 d94 d92 d90 : Dict) :
    List (List String) × Option (Nat × String) :=
  manifest_loop (manifest_row d99 d98 d96 d94 d92 d90) (dkeys d99)

/-- The manifest header of cell 06a080c0:
`[f'antiref{c}' for c in thresholds]` joined with commas. -/
def manifest_header (ts : List Nat) : String :=
  String.intercalate "," (ts.map (fun c => "antiref" ++ toString c))

/-- One CSV data line of the manifest: `','.join(row)`. -/
def manifest_line (row : List String) : String := String.intercalate "," row

/-- The efficiency loop of cell 80d44763.  `count t` is the line count of
level `t`'s cluster-sizes file (`wc -l`).  The accumulator mirrors
`antiref100_count`, initially `None` and set when `threshold == 100`; each
record is `(clustering_identity, clusters, efficiency)` with
`efficiency = count / antiref100_count`.  Dividing while the accumulator is
still `None` is Python's `TypeError`, dividing by zero its
`ZeroDivisionError`; float division is modelled exactly in `ℚ`. -/
def efficiency_loop (count : Nat → Nat) :
    List Nat → Option Nat → Except String (List (Nat × Nat × ℚ))
  | [], _ => .ok []
  | t :: rest, base =>
    let c := count t
    let base0 := if t = 100 then some c else base
    match base0 with
    | none => .error "TypeError"
    | some b =>
      if b = 0 then .error "ZeroDivisionError"
      else
        match efficiency_loop count rest base0 with
        | .error e => .error e
        | .ok rows => .ok ((t, c, (c : ℚ) / (b : ℚ)) :: rows)

/-- The observable outcome of the shell command spawned by `linclust`
(cell 90d21181): the exit status of the `&&`-chained mmseqs pipeline,
its captured output streams, and whether the expected artifacts exist
afterwards.  The modelled code reads none of these except the two streams. -/
structure ToolRun where
  exitCode : Int
  toolStdout : String
  toolStderr : String
  outputsPresent : Bool

/-- `linclust` (cell 90d21181) after `p.communicate()`: the function returns
`(stdout, stderr)` when `debug` is set and `None` otherwise.  `p.returncode`
and the artifact paths are never inspected, so no exception is ever raised
on a failed tool run: the `.error` branch of the result is unreachable. -/
def linclust_result (run : ToolRun) (debug : Bool) :
    Except String (Option (String × String)) :=
  .ok (if debug then some (run.toolStdout, run.toolStderr) else none)

/-- Python `parent_lookup[threshold]` where `parent_lookup` is an int-keyed
dict (cell db3a5e7b); `none` is a `KeyError`. -/
def nlookup (d : List (Nat × String)) (k : Nat) : Option String :=
  match d with
  | [] => none
  | (k₀, v₀) :: rest => if k₀ = k then some v₀ else nlookup rest k

/-- The `parent_lookup` dict of cell db3a5e7b. -/
def parent_lookup : List (Nat × String) :=
  [(100, "./data/antiref/seqdb/init"),
   (99, "./data/antiref/seqdb/antiref100"),
   (98, "./data/antiref/seqdb/antiref99"),
   (96, "./data/antiref/seqdb/antiref98"),
   (94, "./data/antiref/seqdb/antiref96"),
   (92, "./data/antiref/seqdb/antiref94"),
   (90, "./data/antiref/seqdb/antiref92")]

/-- The pipeline loop of cell 5ed69526: for each threshold, look up its
parent database (a missing key is a `KeyError` aborting the loop) and call
`linclust`.  Returns the thresholds for which `linclust` completed, and the
exception that aborted the loop, if any. -/
def pipeline_run (ts : List Nat) (parents : List (Nat × String))
    (runs : Nat → ToolRun) : List Nat × Option String :=
  match ts with
  | [] => ([], none)
  | t :: rest =>
    match nlookup parents t with
    | none => ([], some "KeyError")
    | some _ =>
      match linclust_result (runs t) false with
      | .error e => ([], some e)
      | .ok _ =>
        let p := pipeline_run rest parents runs
        (t :: p.fst, p.snd)

/-- One level's assignment tsv as `(representative, member)` records
(`mmseqs createtsv` output, the file the loader of cell 8a002d12 reads). -/
abbrev TsvTable := List (String × String)

/-- First column of the tsv: the representatives, one per record. -/
def tsv_reps (t : TsvTable) : List String := t.map Prod.fst

/-- Second column of the tsv: the members, one per record. -/
def tsv_members (t : TsvTable) : List String := t.map Prod.snd

/-- The row count of the cluster-sizes artifact of `linclust`
(`cut -f 1 {seq_tsv} | sort | uniq -c`): one output line per distinct
representative in the tsv's first column. -/
def cluster_count (t : TsvTable) : Nat := (tsv_reps t).dedup.length

/-- The mock antiref99 assignment table from the manifest documentation:
`id_01` and `id_02` cluster under representative `id_01`; `id_03`, `id_04`,
`id_05` each represent themselves. -/
def mock99 : List String :=
  ["id_01 id_01", "id_01 id_02", "id_03 id_03", "id_04 id_04", "id_05 id_05"]

/-- The mock identity assignment table used for levels 98, 96, 94 and 92:
every antiref99 representative represents itself. -/
def mockIdentity : List String :=
  ["id_01 id_01", "id_03 id_03", "id_04 id_04", "id_05 id_05"]

/-- The mock antiref90 assignment table: `id_01`'s chain collapses with
`id_03` under representative `id_03`; `id_04` and `id_05` stay apart. -/
def mock90 : List String :=
  ["id_03 id_01", "id_03 id_03", "id_04 id_04", "id_05 id_05"]

/-- The dictionary the loader builds from `mock99`. -/
def mdict99 : Dict :=
  [("id_01", "id_01"), ("id_02", "id_01"), ("id_03", "id_03"),
   ("id_04", "id_04"), ("id_05", "id_05")]

/-- The dictionary the loader builds from `mockIdentity`. -/
def mdictId : Dict :=
  [("id_01", "id_01"), ("id_03", "id_03"), ("id_04", "id_04"),
   ("id_05", "id_05")]

/-- The dictionary the loader builds from `mock90`. -/
def mdict90 : Dict :=
  [("id_01", "id_03"), ("id_03", "id_03"), ("id_04", "id_04"),
   ("id_05", "id_05")]

/-! ## Dictionary lemmas -/

theorem dlookup_mem {d : Dict} {k v : String} (h : dlookup d k = some v) :
    (k, v) ∈ d := by
  induction d with
  | nil => simp [dlookup] at h
  | cons p rest ih =>
    obtain ⟨k₀, v₀⟩ := p
    unfold dlookup at h
    split at h
    · rename_i hk
      simp only [Option.some.injEq] at h
      subst hk
      subst h
      exact List.mem_cons_self _ _
    · exact List.mem_cons_of_mem _ (ih h)

theorem dlookup_dinsert_self (d : Dict) (k v : String) :
    dlookup (dinsert d k v) k = some v := by
  induction d with
  | nil => simp [dinsert, dlookup]
  | cons p rest ih =>
    obtain ⟨k₀, v₀⟩ := p
    by_cases hk : k₀ = k
    · simp [dinsert, hk, dlookup]
    · simp [dinsert, hk, dlookup, ih]

theorem mem_dinsert {d : Dict} {a b k v : String}
    (h : (a, b) ∈ dinsert d k v) : (a, b) ∈ d ∨ (a = k ∧ b = v) := by
  induction d with
  | nil =>
    simp only [dinsert, List.mem_singleton, Prod.mk.injEq] at h
    exact Or.inr h
  | cons p rest ih =>
    obtain ⟨k₀, v₀⟩ := p
    unfold dinsert at h
    split at h
    · rename_i hk
      rcases List.mem_cons.mp h with h₁ | h₁
      · rw [Prod.mk.injEq] at h₁
        exact Or.inr ⟨h₁.1.trans hk, h₁.2⟩
      · exact Or.inl (List.mem_cons_of_mem _ h₁)
    · rcases List.mem_cons.mp h with h₁ | h₁
      · exact Or.inl (List.mem_cons.mpr (Or.inl h₁))
      · rcases ih h₁ with h₂ | h₂
        · exact Or.inl (List.mem_cons_of_mem _ h₂)
        · exact Or.inr h₂

/-! ## Chain-resolution lemmas -/

theorem resolve_chain_length {dicts : List (Nat × Dict)} {seed : String}
    {row : List String} (h : resolve_chain dicts seed = .ok row) :
    row.length = dicts.length + 1 := by
  induction dicts generalizing seed row with
  | nil =>
    simp only [resolve_chain, Except.ok.injEq] at h
    subst h
    rfl
  | cons p rest ih =>
    obtain ⟨lvl, d⟩ := p
    unfold resolve_chain at h
    split at h
    · exact absurd h (by simp)
    · split at h
      · exact absurd h (by simp)
      · rename_i v hv row' hrow
        simp only [Except.ok.injEq] at h
        subst h
        simp [ih hrow]

theorem resolve_chain_head {dicts : List (Nat × Dict)} {seed : String}
    {row : List String} (h : resolve_chain dicts seed = .ok row) :
    row[0]? = some seed := by
  cases dicts with
  | nil =>
    simp only [resolve_chain, Except.ok.injEq] at h
    subst h
    rfl
  | cons p rest =>
    obtain ⟨lvl, d⟩ := p
    unfold resolve_chain at h
    split at h
    · exact absurd h (by simp)
    · split at h
      · exact absurd h (by simp)
      · simp only [Except.ok.injEq] at h
        subst h
        simp

theorem resolve_chain_drop {dicts : List (Nat × Dict)} {seed : String}
    {row : List String} (h : resolve_chain dicts seed = .ok row) :
    ∀ i x, row[i]? = some x →
      resolve_chain (dicts.drop i) x = .ok (row.drop i) := by
  induction dicts generalizing seed row with
  | nil =>
    intro i x hx
    simp only [resolve_chain, Except.ok.injEq] at h
    subst h
    cases i with
    | zero =>
      simp only [List.getElem?_cons_zero, Option.some.injEq] at hx
      subst hx
      rfl
    | succ j => simp at hx
  | cons p rest ih =>
    intro i x hx
    obtain ⟨lvl, d⟩ := p
    have hcopy := h
    unfold resolve_chain at hcopy
    split at hcopy
    · exact absurd hcopy (by simp)
    · split at hcopy
      · exact absurd hcopy (by simp)
      · rename_i v hv row' hrow
        simp only [Except.ok.injEq] at hcopy
        subst hcopy
        cases i with
        | zero =>
          simp only [List.getElem?_cons_zero, Option.some.injEq] at hx
          subst hx
          simpa using h
        | succ j =>
          simp only [List.getElem?_cons_succ] at hx
          simpa using ih hrow j x hx

theorem resolve_chain_error {dicts : List (Nat × Dict)} {seed : String}
    {lvl : Nat} {key : String}
    (h : resolve_chain dicts seed = .error (lvl, key)) :
    ∃ d, (lvl, d) ∈ dicts ∧ dlookup d key = none := by
  induction dicts generalizing seed with
  | nil => simp [resolve_chain] at h
  | cons p rest ih =>
    obtain ⟨l₀, d₀⟩ := p
    unfold resolve_chain at h
    split at h
    · rename_i hl
      simp only [Except.error.injEq, Prod.mk.injEq] at h
      obtain ⟨h₁, h₂⟩ := h
      subst h₁
      subst h₂
      exact ⟨d₀, List.mem_cons_self _ _, hl⟩
    · split at h
      · rename_i v hv e he
        simp only [Except.error.injEq] at h
        subst h
        obtain ⟨d, hd, hlook⟩ := ih he
        exact ⟨d, List.mem_cons_of_mem _ hd, hlook⟩
      · exact absurd h (by simp)

theorem manifest_row_eq_resolve_chain (d99 d98 d96 d94 d92 d90 : Dict)
    (seed : String) :
    manifest_row d99 d98 d96 d94 d92 d90 seed =
      resolve_chain
        [(99, d99), (98, d98), (96, d96), (94, d94), (92, d92), (90, d90)]
        seed := by
  cases h99 : dlookup d99 seed with
  | none => simp [manifest_row, resolve_chain, h99]
  | some c99 =>
    cases h98 : dlookup d98 c99 with
    | none => simp [manifest_row, resolve_chain, h99, h98]
    | some c98 =>
      cases h96 : dlookup d96 c98 with
      | none => simp [manifest_row, resolve_chain, h99, h98, h96]
      | some c96 =>
        cases h94 : dlookup d94 c96 with
        | none => simp [manifest_row, resolve_chain, h99, h98, h96, h94]
        | some c94 =>
          cases h92 : dlookup d92 c94 with
          | none => simp [manifest_row, resolve_chain, h99, h98, h96, h94, h92]
          | some c92 =>
            cases h90 : dlookup d90 c92 with
            | none =>
              simp [manifest_row, resolve_chain, h99, h98, h96, h94, h92, h90]
            | some c90 =>
              simp [manifest_row, resolve_chain, h99, h98, h96, h94, h92, h90]

theorem manifest_row_head {d99 d98 d96 d94 d92 d90 : Dict} {seed : String}
    {row : List String}
    (h : manifest_row d99 d98 d96 d94 d92 d90 seed = .ok row) :
    row[0]? = some seed := by
  rw [manifest_row_eq_resolve_chain] at h
  exact resolve_chain_head h

/-! ## Manifest-loop lemmas -/

theorem manifest_loop_mem {rowOf : String → Except (Nat × String) (List String)}
    {names : List String} {r : List String}
    (h : r ∈ (manifest_loop rowOf names).fst) : ∃ n, rowOf n = .ok r := by
  induction names with
  | nil => simp [manifest_loop] at h
  | cons n rest ih =>
    unfold manifest_loop at h
    split at h
    · simp at h
    · rename_i row hrow
      simp only [List.mem_cons] at h
      rcases h with h | h
      · exact ⟨n, by rw [hrow, h]⟩
      · exact ih h

theorem manifest_loop_len {rowOf : String → Except (Nat × String) (List String)}
    {names : List String} (h : (manifest_loop rowOf names).snd = none) :
    (manifest_loop rowOf names).fst.length = names.length := by
  induction names with
  | nil => rfl
  | cons n rest ih =>
    unfold manifest_loop at h ⊢
    split at h
    · simp at h
    · rename_i row hrow
      have h₂ : (manifest_loop rowOf rest).snd = none := h
      show (row :: (manifest_loop rowOf rest).fst).length = rest.length + 1
      rw [List.length_cons, ih h₂]

theorem manifest_loop_first {rowOf : String → Except (Nat × String) (List String)}
    (hhead : ∀ n row, rowOf n = .ok row → row[0]? = some n)
    {names : List String} (h : (manifest_loop rowOf names).snd = none) :
    (manifest_loop rowOf names).fst.map (fun r => r[0]?) = names.map some := by
  induction names with
  | nil => rfl
  | cons n rest ih =>
    unfold manifest_loop at h ⊢
    split at h
    · simp at h
    · rename_i row hrow
      have h₂ : (manifest_loop rowOf rest).snd = none := h
      show (row :: (manifest_loop rowOf rest).fst).map (fun r => r[0]?) =
        some n :: rest.map some
      rw [List.map_cons, ih h₂, hhead n row hrow]

/-! ## Loader lemmas -/

theorem load_from_cons (d : Dict) (line : String) (rest : List String) :
    load_cluster_dict_from d (line :: rest) =
      match pysplit (pystrip line) with
      | [] => load_cluster_dict_from d rest
      | [_] => .error "IndexError"
      | rep :: mem :: _ => load_cluster_dict_from (dinsert d mem rep) rest := rfl

theorem load_from_append (xs ys : List String) (d : Dict) :
    load_cluster_dict_from d (xs ++ ys) =
      match load_cluster_dict_from d xs with
      | .ok d₁ => load_cluster_dict_from d₁ ys
      | .error e => .error e := by
  induction xs generalizing d with
  | nil => rfl
  | cons line rest ih =>
    simp only [List.cons_append]
    rw [load_from_cons d line (rest ++ ys), load_from_cons d line rest]
    cases hs : pysplit (pystrip line) with
    | nil => exact ih d
    | cons t ts =>
      cases ts with
      | nil => rfl
      | cons t₂ ts₂ => exact ih (dinsert d t₂ t)

theorem load_from_mem {lines : List String} {d d₁ : Dict} {k v : String}
    (h : load_cluster_dict_from d lines = .ok d₁) (hmem : (k, v) ∈ d₁) :
    (k, v) ∈ d ∨ ∃ l ∈ lines, ∃ rest, pysplit (pystrip l) = v :: k :: rest := by
  induction lines generalizing d with
  | nil =>
    simp only [load_cluster_dict_from, Except.ok.injEq] at h
    subst h
    exact Or.inl hmem
  | cons line rest ih =>
    unfold load_cluster_dict_from at h
    split at h
    · rcases ih h with h₁ | ⟨l, hl, r, hr⟩
      · exact Or.inl h₁
      · exact Or.inr ⟨l, List.mem_cons_of_mem _ hl, r, hr⟩
    · exact absurd h (by simp)
    · rename_i rep mem extra hsplit
      rcases ih h with h₁ | ⟨l, hl, r, hr⟩
      · rcases mem_dinsert h₁ with h₂ | ⟨hk, hv⟩
        · exact Or.inl h₂
        · subst hk
          subst hv
          exact Or.inr ⟨line, List.mem_cons_self _ _, extra, hsplit⟩
      · exact Or.inr ⟨l, List.mem_cons_of_mem _ hl, r, hr⟩

theorem load_from_ok_iff (lines : List String) (d : Dict) :
    (∃ d₂, load_cluster_dict_from d lines = .ok d₂) ↔
      ∀ l ∈ lines,
        pysplit (pystrip l) = [] ∨ 2 ≤ (pysplit (pystrip l)).length := by
  induction lines generalizing d with
  | nil => simp [load_cluster_dict_from]
  | cons line rest ih =>
    simp only [List.forall_mem_cons]
    unfold load_cluster_dict_from
    cases hs : pysplit (pystrip line) with
    | nil => simp [hs, ih d]
    | cons t ts =>
      cases ts with
      | nil => simp [hs]
      | cons t₂ ts₂ => simp [hs, ih (dinsert d t₂ t)]

theorem pysplit_pystrip_of_whitespace {line : String}
    (h : ∀ c ∈ line.data, c.isWhitespace) : pysplit (pystrip line) = [] := by
  have h₁ : line.data.dropWhile Char.isWhitespace = [] :=
    List.dropWhile_eq_nil_iff.mpr h
  unfold pysplit pystrip
  rw [h₁]
  rfl

/-! ## Efficiency lemmas -/

theorem efficiency_loop_formula (count : Nat → Nat) (hb : count 100 ≠ 0)
    (ts : List Nat) :
    efficiency_loop count ts (some (count 100)) =
      .ok (ts.map fun t => (t, count t, (count t : ℚ) / (count 100 : ℚ))) := by
  induction ts with
  | nil => rfl
  | cons t rest ih =>
    unfold efficiency_loop
    have hbase : (if t = 100 then some (count t) else some (count 100)) =
        some (count 100) := by
      by_cases ht : t = 100
      · simp [ht]
      · rw [if_neg ht]
    simp only [hbase, if_neg hb, ih, List.map_cons]

/-! ## Cluster-count lemmas -/

theorem cluster_count_le {t₁ t₂ : TsvTable}
    (hnd : (tsv_members t₂).Nodup)
    (hset : (tsv_members t₂).toFinset = (tsv_reps t₁).toFinset) :
    cluster_count t₂ ≤ cluster_count t₁ := by
  have h₁ : cluster_count t₂ = (tsv_reps t₂).toFinset.card := by
    rw [List.card_toFinset]
    rfl
  have h₂ : cluster_count t₁ = (tsv_reps t₁).toFinset.card := by
    rw [List.card_toFinset]
    rfl
  rw [h₁, h₂, ← hset, List.toFinset_card_of_nodup hnd]
  calc (tsv_reps t₂).toFinset.card
      ≤ (tsv_reps t₂).length := List.toFinset_card_le _
    _ = t₂.length := List.length_map _ _
    _ = (tsv_members t₂).length := (List.length_map _ _).symm

/-! ## Claims -/

/-- Claim C1 (monotonic collapse of lineages): if the manifest rows resolved
for two base identifiers carry the same representative at some level (the
column at index `i`, levels being ordered finest to coarsest), then the two
rows are identical at every coarser-or-equal level, i.e. at every column
index `j ≥ i` — each subsequent column is computed solely as a lookup of the
previous column's value. -/
theorem monotonic_collapse (d99 d98 d96 d94 d92 d90 : Dict) (a b x : String)
    (rowA rowB : List String) (i : Nat)
    (ha : manifest_row d99 d98 d96 d94 d92 d90 a = .ok rowA)
    (hb : manifest_row d99 d98 d96 d94 d92 d90 b = .ok rowB)
    (hxa : rowA[i]? = some x) (hxb : rowB[i]? = some x) :
    rowA.drop i = rowB.drop i ∧ ∀ j, i ≤ j → rowA[j]? = rowB[j]? := by
  rw [manifest_row_eq_resolve_chain] at ha hb
  have hA := resolve_chain_drop ha i x hxa
  have hB := resolve_chain_drop hb i x hxb
  have hdrop : rowA.drop i = rowB.drop i :=
    Except.ok.inj (hA.symm.trans hB)
  refine ⟨hdrop, fun j hij => ?_⟩
  have h₁ : rowA[j]? = (rowA.drop i)[j - i]? := by
    rw [List.getElem?_drop]
    congr 1
    omega
  have h₂ : rowB[j]? = (rowB.drop i)[j - i]? := by
    rw [List.getElem?_drop]
    congr 1
    omega
  rw [h₁, h₂, hdrop]

/-- Witness for C1: in the documented mock data, `id_01` and `id_02` share
representative `id_01` at the antiref99 column (index 1), and their rows
agree from that column on. -/
theorem monotonic_collapse_witness :
    manifest_row mdict99 mdictId mdictId mdictId mdictId mdict90 "id_01" =
      .ok ["id_01", "id_01", "id_01", "id_01", "id_01", "id_01", "id_03"] ∧
    manifest_row mdict99 mdictId mdictId mdictId mdictId mdict90 "id_02" =
      .ok ["id_02", "id_01", "id_01", "id_01", "id_01", "id_01", "id_03"] ∧
    List.drop 1 ["id_01", "id_01", "id_01", "id_01", "id_01", "id_01", "id_03"] =
      List.drop 1 ["id_02", "id_01", "id_01", "id_01", "id_01", "id_01", "id_03"] :=
  ⟨by decide, by decide,
    (monotonic_collapse mdict99 mdictId mdictId mdictId mdictId mdict90
      "id_01" "id_02" "id_01"
      ["id_01", "id_01", "id_01", "id_01", "id_01", "id_01", "id_03"]
      ["id_02", "id_01", "id_01", "id_01", "id_01", "id_01", "id_03"] 1
      (by decide) (by decide) (by decide) (by decide)).1⟩

/-- Claim C4 (chain completeness with atomic rows): for every seed
identifier, `manifest_row` either returns a complete row with exactly one
entry per configured threshold level (`thresholds.length = 7`), or aborts
with an error naming a level whose dictionary lacks the current chain value;
and every row the manifest writer actually emits is complete — a missing key
is never silently dropped or defaulted, and no partially-filled row is ever
written. -/
theorem chain_completeness (d99 d98 d96 d94 d92 d90 : Dict) (seed : String) :
    ((∃ row, manifest_row d99 d98 d96 d94 d92 d90 seed = .ok row ∧
        row.length = thresholds.length) ∨
      (∃ lvl key d, manifest_row d99 d98 d96 d94 d92 d90 seed = .error (lvl, key) ∧
        (lvl, d) ∈ [(99, d99), (98, d98), (96, d96), (94, d94), (92, d92), (90, d90)] ∧
        dlookup d key = none)) ∧
    ∀ r ∈ (write_manifest d99 d98 d96 d94 d92 d90).fst,
      r.length = thresholds.length := by
  constructor
  · cases hr : manifest_row d99 d98 d96 d94 d92 d90 seed with
    | ok row =>
      left
      refine ⟨row, rfl, ?_⟩
      rw [manifest_row_eq_resolve_chain] at hr
      rw [resolve_chain_length hr]
      rfl
    | error e =>
      right
      obtain ⟨lvl, key⟩ := e
      rw [manifest_row_eq_resolve_chain] at hr
      obtain ⟨d, hd, hlook⟩ := resolve_chain_error hr
      exact ⟨lvl, key, d, rfl, hd, hlook⟩
  · intro r hrmem
    obtain ⟨n, hn⟩ := manifest_loop_mem hrmem
    rw [manifest_row_eq_resolve_chain] at hn
    rw [resolve_chain_length hn]
    rfl

/-- Claim C5 (manifest coverage and ordering): given the per-level
dictionaries and the complete base-level identifier set — which, by the
parent/child construction invariant, is exactly the key set of the antiref99
dictionary the writer seeds from — the writer emits, when no chain fails,
exactly one lineage row per base identifier, and the rows appear in the
iteration order of the seed identifier set (each row's first column is its
base identifier). -/
theorem manifest_coverage_order (d99 d98 d96 d94 d92 d90 : Dict)
    (baseIds : List String) (hbase : dkeys d99 = baseIds)
    (hok : (write_manifest d99 d98 d96 d94 d92 d90).snd = none) :
    (write_manifest d99 d98 d96 d94 d92 d90).fst.length = baseIds.length ∧
    (write_manifest d99 d98 d96 d94 d92 d90).fst.map (fun r => r[0]?) =
      baseIds.map some := by
  subst hbase
  unfold write_manifest at hok ⊢
  exact ⟨manifest_loop_len hok,
    manifest_loop_first (fun n row hn => manifest_row_head hn) hok⟩

/-- Witness for C5: on the documented mock data the writer succeeds and
emits one row per mock identifier, first columns in seed iteration order. -/
theorem manifest_coverage_order_witness :
    dkeys mdict99 = ["id_01", "id_02", "id_03", "id_04", "id_05"] ∧
    (write_manifest mdict99 mdictId mdictId mdictId mdictId mdict90).snd = none ∧
    (write_manifest mdict99 mdictId mdictId mdictId mdictId mdict90).fst.map
        (fun r => r[0]?) =
      [some "id_01", some "id_02", some "id_03", some "id_04", some "id_05"] :=
  ⟨by decide, by decide, by
    have h := (manifest_coverage_order mdict99 mdictId mdictId mdictId mdictId
      mdict90 ["id_01", "id_02", "id_03", "id_04", "id_05"]
      (by decide) (by decide)).2
    rw [h]
    decide⟩

/-- Counterexample to C2: the table `["A x", "B x"]` repeats member key `x`,
yet the load succeeds — no error of any kind is raised — and the resulting
lookup silently keeps the last-written representative `B`. -/
theorem duplicate_key_counterexample :
    load_cluster_dict ["A x", "B x"] = .ok [("x", "B")] ∧
    dlookup [("x", "B")] "x" = some "B" := by
  exact ⟨by decide, by decide⟩

/-- Claim C2 as amended: when an assignment table repeats a member key, the
loader does not fail; appending a record whose member token is `mem` to any
successfully loaded prefix yields a successful load whose lookup at `mem` is
that record's representative — last write wins. -/
theorem duplicate_key_last_write_wins (pre : List String) (d d₁ : Dict)
    (line rep mem : String) (extra : List String)
    (hline : pysplit (pystrip line) = rep :: mem :: extra)
    (hpre : load_cluster_dict_from d pre = .ok d₁) :
    load_cluster_dict_from d (pre ++ [line]) = .ok (dinsert d₁ mem rep) ∧
    dlookup (dinsert d₁ mem rep) mem = some rep := by
  constructor
  · rw [load_from_append, hpre]
    show load_cluster_dict_from d₁ [line] = .ok (dinsert d₁ mem rep)
    rw [load_from_cons, hline]
    rfl
  · exact dlookup_dinsert_self d₁ mem rep

/-- Witness for C2 amended: loading `["A x"]` then the duplicate `"B x"`
succeeds and maps `x` to `B`. -/
theorem duplicate_key_last_write_wins_witness :
    load_cluster_dict_from [] (["A x"] ++ ["B x"]) =
      .ok (dinsert [("x", "A")] "x" "B") ∧
    dlookup (dinsert [("x", "A")] "x" "B") "x" = some "B" :=
  duplicate_key_last_write_wins ["A x"] [] [("x", "A")] "B x" "B" "x" []
    (by decide) (by decide)

/-- Counterexample to C3: with the external tool failing at every level
(exit code 1, expected outputs absent), `linclust` still reports success
(it returns `None`, raising nothing), and the pipeline loop still runs every
remaining threshold — there is no `ClusteringToolError` and no fail-fast
abort. -/
theorem pipeline_failfast_counterexample :
    linclust_result ⟨1, "", "error", false⟩ false = .ok none ∧
    pipeline_run thresholds parent_lookup (fun _ => ⟨1, "", "error", false⟩) =
      (thresholds, none) := by
  exact ⟨by decide, by decide⟩

/-- Claim C3 as amended: `linclust` never inspects the external tool's exit
status or verifies its output artifacts, so its error channel is unreachable
for every tool outcome, and the pipeline loop runs every threshold that has
a parent-database entry regardless of tool failures. -/
theorem pipeline_no_failure_detection (ts : List Nat)
    (parents : List (Nat × String)) (runs : Nat → ToolRun)
    (hp : ∀ t ∈ ts, (nlookup parents t).isSome) :
    (∀ t debug, linclust_result (runs t) debug =
        .ok (if debug then some ((runs t).toolStdout, (runs t).toolStderr)
          else none)) ∧
    pipeline_run ts parents runs = (ts, none) := by
  refine ⟨fun t debug => rfl, ?_⟩
  induction ts with
  | nil => rfl
  | cons t rest ih =>
    obtain ⟨v, hv⟩ :=
      Option.isSome_iff_exists.mp (hp t (List.mem_cons_self t rest))
    have ih₂ := ih (fun x hx => hp x (List.mem_cons_of_mem t hx))
    unfold pipeline_run
    rw [hv]
    show (t :: (pipeline_run rest parents runs).fst,
      (pipeline_run rest parents runs).snd) = (t :: rest, none)
    rw [ih₂]

/-- Witness for C3 amended: for the notebook's threshold list and parent
lookup, with the tool reporting disk-full failures, every level still runs
to completion with no error surfaced. -/
theorem pipeline_no_failure_detection_witness :
    (∀ t ∈ thresholds, (nlookup parent_lookup t).isSome) ∧
    pipeline_run thresholds parent_lookup (fun _ => ⟨2, "", "disk full", false⟩) =
      (thresholds, none) :=
  ⟨by decide,
    (pipeline_no_failure_detection thresholds parent_lookup
      (fun _ => ⟨2, "", "disk full", false⟩) (by decide)).2⟩

/-- Claim C8 (assignment parsing is member to representative): whenever the
loader succeeds and its lookup sends `mem` to `rep`, some input record has
`rep` as its first whitespace-delimited token and `mem` as its second — the
load never stores the reverse direction. -/
theorem member_maps_to_representative (lines : List String) (d : Dict)
    (mem rep : String) (hload : load_cluster_dict lines = .ok d)
    (hlook : dlookup d mem = some rep) :
    ∃ l ∈ lines, ∃ rest, pysplit (pystrip l) = rep :: mem :: rest := by
  have hmem : (mem, rep) ∈ d := dlookup_mem hlook
  rcases load_from_mem hload hmem with h | h
  · simp at h
  · exact h

/-- Witness for C8: in the mock antiref99 table, `id_02` maps to `id_01`,
and indeed the record `"id_01 id_02"` lists the representative first. -/
theorem member_maps_to_representative_witness :
    ∃ l ∈ mock99, ∃ rest, pysplit (pystrip l) = "id_01" :: "id_02" :: rest :=
  member_maps_to_representative mock99 mdict99 "id_02" "id_01"
    (by decide) (by decide)

/-- Claim C10 (tolerance of malformed assignment-table lines): a blank or
whitespace-only line is skipped without creating an entry; on a line with at
least two tokens only the first two matter (tokens after the second are
ignored, the record inserted being member `↦` representative); and the load
succeeds exactly when every non-empty line has at least two tokens — a
single-token line makes it fail with an uncaught IndexError. -/
theorem malformed_line_tolerance (lines : List String) (d : Dict) :
    (∀ line rest, (∀ c ∈ line.data, c.isWhitespace) →
        load_cluster_dict_from d (line :: rest) = load_cluster_dict_from d rest) ∧
    (∀ line rest rep mem extra, pysplit (pystrip line) = rep :: mem :: extra →
        load_cluster_dict_from d (line :: rest) =
          load_cluster_dict_from (dinsert d mem rep) rest) ∧
    ((∃ d₂, load_cluster_dict_from d lines = .ok d₂) ↔
      ∀ l ∈ lines,
        pysplit (pystrip l) = [] ∨ 2 ≤ (pysplit (pystrip l)).length) := by
  refine ⟨?_, ?_, load_from_ok_iff lines d⟩
  · intro line rest hws
    rw [load_from_cons, pysplit_pystrip_of_whitespace hws]
  · intro line rest rep mem extra hline
    rw [load_from_cons, hline]

/-- Witness for C10: a whitespace-only line is skipped, extra tokens on
`"A x y"` are ignored, and a well-formed two-token table loads. -/
theorem malformed_line_tolerance_witness :
    load_cluster_dict_from [] ["   ", "A x"] = load_cluster_dict_from [] ["A x"] ∧
    load_cluster_dict_from [] ["A x y", "B z"] =
      load_cluster_dict_from (dinsert [] "x" "A") ["B z"] ∧
    (∃ d₂, load_cluster_dict_from [] ["A x", "B z"] = .ok d₂) :=
  ⟨(malformed_line_tolerance ["A x", "B z"] []).1 "   " ["A x"] (by decide),
   (malformed_line_tolerance ["A x", "B z"] []).2.1 "A x y" ["B z"] "A" "x" ["y"]
     (by decide),
   ((malformed_line_tolerance ["A x", "B z"] []).2.2).mpr (by decide)⟩

/-- Counterexample to C6: with the baseline count computed first and
non-zero (here `count 100 = 2`), the efficiency loop still emits a ratio
greater than 1 when a later level's count exceeds the baseline
(`count 99 = 4` gives ratio 2) and a ratio of 0 when a level's count is zero
(`count 92 = 0`)—the precondition in the claim does not confine the ratios
to the interval (0, 1]. -/
theorem efficiency_bounds_counterexample :
    efficiency_loop (fun t => if t = 99 then 4 else if t = 92 then 0 else 2)
      [100, 99, 92] none = .ok [(100, 2, 1), (99, 4, 2), (92, 0, 0)] ∧
    ¬ ((2 : ℚ) ≤ 1) ∧ ¬ (0 < (0 : ℚ)) := by
  refine ⟨by norm_num [efficiency_loop], by norm_num, by norm_num⟩

/-- Claim C6 as amended: under the stated precondition (the baseline
antiref100 count is computed before any ratio — the threshold list starts
with 100 — and is non-zero) plus the additional precondition the
counterexample forces (each level's count is positive and no greater than
the baseline count), every emitted efficiency ratio lies in (0, 1] and the
baseline level's own ratio equals exactly 1. -/
theorem efficiency_bounds (count : Nat → Nat) (rest : List Nat)
    (hbase : 0 < count 100)
    (hbound : ∀ t ∈ rest, 0 < count t ∧ count t ≤ count 100) :
    ∃ rows, efficiency_loop count (100 :: rest) none = .ok rows ∧
      rows.head? = some (100, count 100, 1) ∧
      ∀ r ∈ rows, 0 < r.2.2 ∧ r.2.2 ≤ 1 := by
  have hb : count 100 ≠ 0 := hbase.ne'
  have hcast : ((count 100 : ℚ)) ≠ 0 := Nat.cast_ne_zero.mpr hb
  refine ⟨(100 :: rest).map
    (fun t => (t, count t, (count t : ℚ) / (count 100 : ℚ))), ?_, ?_, ?_⟩
  · unfold efficiency_loop
    simp only [eq_self_iff_true, if_true, if_neg hb,
      efficiency_loop_formula count hb rest, List.map_cons]
  · simp only [List.map_cons, List.head?_cons, Option.some.injEq,
      Prod.mk.injEq]
    exact ⟨trivial, trivial, div_self hcast⟩
  · intro r hr
    simp only [List.mem_map] at hr
    obtain ⟨t, ht, rfl⟩ := hr
    have hts : 0 < count t ∧ count t ≤ count 100 := by
      rcases List.mem_cons.mp ht with rfl | ht₂
      · exact ⟨hbase, le_refl _⟩
      · exact hbound t ht₂
    constructor
    · exact div_pos (by exact_mod_cast hts.1) (by exact_mod_cast hbase)
    · rw [div_le_one (by exact_mod_cast hbase)]
      exact_mod_cast hts.2

/-- Witness for C6 amended: baseline count 5, one later level of count 4. -/
theorem efficiency_bounds_witness :
    (0 < 5) ∧
    (∃ rows, efficiency_loop (fun t => if t = 100 then 5 else 4) (100 :: [99])
        none = .ok rows ∧
      rows.head? = some (100, 5, 1) ∧
      ∀ r ∈ rows, 0 < r.2.2 ∧ r.2.2 ≤ 1) :=
  ⟨by decide,
    efficiency_bounds (fun t => if t = 100 then 5 else 4) [99]
      (by decide) (by decide)⟩

/-- Claim C7 (count monotonicity): for tables ordered finest to coarsest,
if each table's member column is duplicate-free (the external tool emits one
record per member) and each level's member set equals the previous level's
representative set (coarser clustering runs on the collapsed representative
set), then the per-level cluster counts — the distinct-representative counts
that are the row counts of the size-summary artifacts — are non-increasing
as the threshold decreases. -/
theorem count_monotonicity (tables : List TsvTable)
    (hnd : ∀ t ∈ tables, (tsv_members t).Nodup)
    (hchain : List.Chain'
      (fun a b => (tsv_members b).toFinset = (tsv_reps a).toFinset) tables) :
    List.Chain' (fun m n => n ≤ m) (tables.map cluster_count) := by
  revert hnd hchain
  induction tables with
  | nil =>
    intro _ _
    simp
  | cons t₁ rest ih =>
    intro hnd hchain
    cases rest with
    | nil => simp
    | cons t₂ rest₂ =>
      rw [List.map_cons, List.map_cons, List.chain'_cons]
      rw [List.chain'_cons] at hchain
      refine ⟨cluster_count_le (hnd t₂ (by simp)) hchain.1, ?_⟩
      have h₂ := ih (fun t ht => hnd t (List.mem_cons_of_mem _ ht)) hchain.2
      rw [List.map_cons] at h₂
      exact h₂

/-- Witness for C7: two concrete levels where the second's member set is the
first's representative set; the counts drop from 2 to 1. -/
theorem count_monotonicity_witness :
    (∀ t ∈ [[("A", "A"), ("A", "B"), ("C", "C")], [("A", "A"), ("A", "C")]],
      (tsv_members t).Nodup) ∧
    List.Chain' (fun m n => n ≤ m)
      (([[("A", "A"), ("A", "B"), ("C", "C")],
        [("A", "A"), ("A", "C")]] : List TsvTable).map cluster_count) :=
  ⟨by decide,
    count_monotonicity
      [[("A", "A"), ("A", "B"), ("C", "C")], [("A", "A"), ("A", "C")]]
      (by decide)
      (by
        rw [List.chain'_cons]
        exact ⟨by decide, List.chain'_singleton _⟩)⟩

/-- Claim C9 (end-to-end reference example): with the documented mock
assignments — antiref99 merging `id_01, id_02` under `id_01`, levels 98
through 92 the identity, and antiref90 collapsing the chain of `id_01` into
representative `id_03` — the manifest header lists one antiref column per
threshold in descending order, and the emitted row for `id_02` is exactly
`id_02,id_01,id_01,id_01,id_01,id_01,id_03`; the full emitted table matches
the documented five-row example. -/
theorem end_to_end_example :
    manifest_header thresholds =
      "antiref100,antiref99,antiref98,antiref96,antiref94,antiref92,antiref90" ∧
    load_cluster_dict mock99 = .ok mdict99 ∧
    load_cluster_dict mockIdentity = .ok mdictId ∧
    load_cluster_dict mock90 = .ok mdict90 ∧
    manifest_row mdict99 mdictId mdictId mdictId mdictId mdict90 "id_02" =
      .ok ["id_02", "id_01", "id_01", "id_01", "id_01", "id_01", "id_03"] ∧
    (write_manifest mdict99 mdictId mdictId mdictId mdictId mdict90).fst.map
        manifest_line =
      ["id_01,id_01,id_01,id_01,id_01,id_01,id_03",
       "id_02,id_01,id_01,id_01,id_01,id_01,id_03",
       "id_03,id_03,id_03,id_03,id_03,id_03,id_03",
       "id_04,id_04,id_04,id_04,id_04,id_04,id_04",
       "id_05,id_05,id_05,id_05,id_05,id_05,id_05"] := by
  exact ⟨by decide, by decide, by decide, by decide, by decide, by decide⟩
